import Mathlib

/-!
Verification of the mappersmith middleware invocation engine
(src/client-builder.js together with the config surface of src/mappersmith.js).

The JavaScript code is shallowly embedded: a promise-returning computation over
shared (single-threaded) mutable state `σ` becomes `JsM ε σ α = σ → PResult ε α × σ`.
A rejected promise keeps the state reached so far, as JavaScript rejections do not
roll back side effects.  Promise chaining (`.then`) becomes `JsM.bind`, where a
callback that throws is modelled by the callback returning `JsM.throw`.
-/

namespace Mappersmith

/-- Settlement of a JavaScript promise: fulfilled with a value or rejected with an error. -/
inductive PResult (ε α : Type) where
  | ok (a : α)
  | err (e : ε)
deriving DecidableEq, Repr

/-- A promise-returning JavaScript computation over shared mutable state `σ`.
Execution is single-threaded and strictly sequential, matching the cooperative
scheduling of the engine (no hook overlap within one call). -/
def JsM (ε σ α : Type) : Type := σ → PResult ε α × σ

/-- `Promise.resolve(a)` / a callback returning a plain value. -/
def JsM.pure (a : α) : JsM ε σ α := fun s => (.ok a, s)

/-- `p.then(f)`: on fulfillment run the callback, on rejection propagate;
state (side effects performed so far) survives rejection. -/
def JsM.bind (x : JsM ε σ α) (f : α → JsM ε σ β) : JsM ε σ β := fun s =>
  match x s with
  | (.ok a, s₁) => f a s₁
  | (.err e, s₁) => (.err e, s₁)

/-- A thrown error / `Promise.reject(e)`. -/
def JsM.throw (e : ε) : JsM ε σ α := fun s => (.err e, s)

/-- A bound middleware instance, exactly as consumed by `invokeMiddlewares`:
`request` transforms the working Request (possibly asynchronously, possibly
throwing); `response` is called with the next continuation in the first
position and with whatever the caller supplies in the second position — the
`renew` parameter a hook may declare.  `none` models the JavaScript value
`undefined` for an argument that the caller does not pass. -/
structure MiddlewareInstance (ε σ Req Res : Type) where
  request : Req → JsM ε σ Req
  response : JsM ε σ Res → Option (JsM ε σ Res) → JsM ε σ Res

/-- The hooks a middleware factory may or may not define
(`request` only, `response` only, both, or neither). -/
structure MiddlewareHooks (ε σ Req Res : Type) where
  request : Option (Req → JsM ε σ Req)
  response : Option (JsM ε σ Res → Option (JsM ε σ Res) → JsM ε σ Res)

/-- Modelled from the spec: `Manifest.createMiddleware` is an external collaborator
(src/ holds only its caller); per the spec, at composition time an absent `request`
hook is the identity transformation and an absent `response` hook is a direct
pass-through to `next`. -/
def createMiddleware (h : MiddlewareHooks ε σ Req Res) : MiddlewareInstance ε σ Req Res where
  request := h.request.getD JsM.pure
  response := fun next renew =>
    match h.response with
    | some hook => hook next renew
    | none => next

/-- src/client-builder.js lines 52-56: one request-phase step,
`requestPromise.then(request => middleware.request(request)).then(request => Promise.resolve(request))`. -/
def chainRequestPhase (requestPromise : JsM ε σ Req)
    (middleware : MiddlewareInstance ε σ Req Res) : JsM ε σ Req :=
  (requestPromise.bind (fun request => middleware.request request)).bind
    (fun request => JsM.pure request)

/-- src/client-builder.js line 57:
`(next, middleware) => () => middleware.response(next)` — the response hook is
invoked with the next continuation as its only argument; nothing is supplied
for a second (`renew`) parameter, hence `none`. -/
def chainResponsePhase (next : JsM ε σ Res)
    (middleware : MiddlewareInstance ε σ Req Res) : JsM ε σ Res :=
  middleware.response next none

/-- src/client-builder.js lines 59-72: the request phase is
`middleware.reduce(chainRequestPhase, Promise.resolve(initialRequest))`; its result
`finalRequest` seeds `callGateway`, the response phase is
`middleware.reduce(chainResponsePhase, callGateway)` and the outermost continuation
is invoked once.  The `new Promise((resolve, reject) => …)` wrapper with
`.then(response => resolve(response))` and `.catch(reject)` is the identity on
settled outcomes.  The middleware list (obtained in the source from
`manifest.createMiddleware`) and the gateway call
(`() => new GatewayClass(finalRequest, gatewayConfigs).call()`) are parameters. -/
def invokeMiddlewares (middleware : List (MiddlewareInstance ε σ Req Res))
    (callGateway : Req → JsM ε σ Res) (initialRequest : Req) : JsM ε σ Res :=
  (middleware.foldl chainRequestPhase (JsM.pure initialRequest)).bind
    (fun finalRequest => middleware.foldl chainResponsePhase (callGateway finalRequest))

/-- The request phase exactly as the spec words it: a strictly sequential
left-to-right fold over the middleware list starting from the initial Request,
awaiting each hook's result and replacing the working Request with it. -/
def requestPhaseSpec : List (MiddlewareInstance ε σ Req Res) → Req → JsM ε σ Req
  | [], r => JsM.pure r
  | m :: ms, r => (m.request r).bind (fun r₁ => requestPhaseSpec ms r₁)

/-- Append a value to a shared log (state `σ = List Nat`). -/
def logIdx (i : Nat) : JsM String (List Nat) Unit := fun s => (.ok (), s ++ [i])

/-- A middleware defining only a `response` hook that records its index in the
shared log before invoking `next()` (its `request` hook is absent, hence the
spec-modelled identity default). -/
def seqLogMiddleware (i : Nat) : MiddlewareInstance String (List Nat) Nat Nat :=
  createMiddleware
    { request := none
      response := some (fun next _renew => (logIdx i).bind (fun _ => next)) }

/-- A gateway whose call resolves a fixed response. -/
def constGateway (res : Res) : Req → JsM ε σ Res := fun _ => JsM.pure res

/-- A gateway that counts its calls (state `σ = Nat`) and resolves `99`. -/
def countingGateway : Nat → JsM String Nat Nat := fun _ => fun s => (.ok 99, s + 1)

/-- A middleware whose `response` hook is `(next, renew) => renew()`: it invokes its
second parameter.  If the caller did not supply that argument (JavaScript
`undefined`), the invocation throws a TypeError. -/
def renewProbeMiddleware : MiddlewareInstance String Nat Nat Nat :=
  createMiddleware
    { request := none
      response := some (fun _next renew =>
        match renew with
        | some r => r
        | none => JsM.throw "TypeError: renew is not a function") }

/-- The closure variable `executionCount` of the repository's own loop-guard test,
incremented at the start of each hook run (state `(executionCount, gatewayCalls)`). -/
def bumpExecutionCount : JsM String (Nat × Nat) Nat :=
  fun s => (.ok (s.1 + 1), (s.1 + 1, s.2))

/-- The gateway for the loop-guard test: counts its calls in the second state
component and resolves `0`. -/
def loopTestGateway : Nat → JsM String (Nat × Nat) Nat :=
  fun _ => fun s => (.ok 0, (s.1, s.2 + 1))

/-- The middleware of the repository's test `prevents renew to cause infinite loops`
(src lines 358-373): `(next, renew) => { executionCount++;
return executionCount < 5 ? renew() : next() }`. -/
def loopingMiddleware : MiddlewareInstance String (Nat × Nat) Nat Nat :=
  createMiddleware
    { request := none
      response := some (fun next renew =>
        bumpExecutionCount.bind (fun c =>
          if c < 5 then
            match renew with
            | some r => r
            | none => JsM.throw "TypeError: renew is not a function"
          else next)) }

/-- The middleware instance produced for a factory defining neither hook. -/
def noopMiddleware : MiddlewareInstance ε σ Req Res :=
  createMiddleware { request := none, response := none }

/-- A middleware whose `response` hook resolves a fixed Response without ever
invoking `next()` (its `request` hook is the identity). -/
def constResponseMiddleware (res : Res) : MiddlewareInstance ε σ Req Res where
  request := JsM.pure
  response := fun _next _renew => JsM.pure res

/-- A middleware whose `request` hook throws/rejects with `e`
(its `response` hook passes through to `next`). -/
def throwingRequestMiddleware (e : ε) : MiddlewareInstance ε σ Req Res where
  request := fun _ => JsM.throw e
  response := fun next _renew => next

/-- A middleware whose `response` hook throws/rejects with `e` without calling
`next()` (its `request` hook is the identity). -/
def throwingResponseMiddleware (e : ε) : MiddlewareInstance ε σ Req Res where
  request := JsM.pure
  response := fun _next _renew => JsM.throw e

/-- A JavaScript argument slot: absent (`undefined`), `null`, or an actual value.
`undefined` and `null` are the falsy shapes a missing manifest or gateway
factory takes. -/
inductive JsArg (α : Type) where
  | undefined
  | null
  | value (a : α)

/-- JavaScript truthiness of an argument slot. -/
def JsArg.truthy : JsArg α → Bool
  | .value _ => true
  | _ => false

/-- JavaScript template-string interpolation of an argument slot. -/
def JsArg.display (f : α → String) : JsArg α → String
  | .undefined => "undefined"
  | .null => "null"
  | .value a => f a

/-- What a successfully constructed ClientBuilder holds (src lines 23-25): the
manifest and the gateway class factory.  (`new Manifest(manifest, configs)` and
`configs.Promise` are external collaborators whose construction cannot fail.) -/
structure BuilderParts (M G : Type) where
  manifest : M
  GatewayClassFactory : Unit → JsArg G

/-- src/client-builder.js lines 10-26: the constructor throws on a falsy
`manifest` with a message embedding the offending value, then on an absent
gateway factory or a factory returning a falsy class; otherwise it succeeds
synchronously.  `dispM` is the string interpolation of a manifest value. -/
def ClientBuilder (dispM : M → String) (manifest : JsArg M)
    (GatewayClassFactory : JsArg (Unit → JsArg G)) : Except String (BuilderParts M G) :=
  if manifest.truthy = false then
    .error ("[Mappersmith] invalid manifest (" ++ JsArg.display dispM manifest ++ ")")
  else
    match manifest, GatewayClassFactory with
    | .value m, .value factory =>
      match factory () with
      | .value _ => .ok ⟨m, factory⟩
      | _ => .error "[Mappersmith] gateway class not configured (configs.gateway)"
    | _, _ => .error "[Mappersmith] gateway class not configured (configs.gateway)"

/-- Modelled from the spec: `assign` (src/utils, not under src/) is the JavaScript
object merge used by `setContext`: every key of the source lands in the result
(source values winning), every other key of the target is preserved.  Objects of
string keys are modelled as maps `String → Option α`. -/
def assign (target source : String → Option α) : String → Option α :=
  fun k =>
    match source k with
    | some v => some v
    | none => target k

/-- The mutable process-wide configuration object (src/mappersmith.js line 85)
as far as the executor reads it: its `context` field. -/
structure ConfigsState (α : Type) where
  context : String → Option α

/-- src/mappersmith.js lines 167-169:
`configs.context = assign(configs.context, context)`. -/
def setContext (context : String → Option α) (configs : ConfigsState α) : ConfigsState α :=
  { configs with context := assign configs.context context }

/-- Existing context for the setContext witness. -/
def previousContext : String → Option Nat :=
  fun k => if k = "a" then some 1 else if k = "b" then some 2 else none

/-- Argument passed to setContext in the witness. -/
def contextArgument : String → Option Nat :=
  fun k => if k = "a" then some 9 else none

/-- A method entry of a manifest resource: its name and request descriptor. -/
structure Method (Descriptor : Type) where
  name : String
  descriptor : Descriptor

/-- The external Request value object: `new Request(method.descriptor,
requestParams)` packages the method's descriptor with the call-time params. -/
structure Request (Descriptor Params : Type) where
  descriptor : Descriptor
  params : Params

/-- Modelled from the spec: the external Manifest collaborator, consumed through
`eachResource` (here the ordered resource list it iterates), `createMiddleware`
(the ordered middleware-instance list for a resource/method pair) and
`gatewayConfigs`. -/
structure Manifest (ε σ Descriptor Params Res GwCfg : Type) where
  resources : List (String × List (Method Descriptor))
  createMiddleware :
    String → String → List (MiddlewareInstance ε σ (Request Descriptor Params) Res)
  gatewayConfigs : GwCfg

/-- The fields a constructed ClientBuilder carries into `build` (src lines 23-25);
the gateway class is `finalRequest → gatewayConfigs → async Response`, collapsing
`new GatewayClass(finalRequest, gatewayConfigs).call()`. -/
structure ClientBuilderState (ε σ Descriptor Params Res GwCfg : Type) where
  manifest : Manifest ε σ Descriptor Params Res GwCfg
  GatewayClassFactory : Unit → Request Descriptor Params → GwCfg → JsM ε σ Res

/-- src lines 48-51 around the chain: obtain the middleware list for this
resource/method pair and the gateway class, then run the chain on the initial
Request. -/
def ClientBuilderState.invokeMiddlewares (b : ClientBuilderState ε σ D P Res GwCfg)
    (resourceName resourceMethod : String) (initialRequest : Request D P) : JsM ε σ Res :=
  Mappersmith.invokeMiddlewares (b.manifest.createMiddleware resourceName resourceMethod)
    (fun finalRequest => b.GatewayClassFactory () finalRequest b.manifest.gatewayConfigs)
    initialRequest

/-- src lines 39-46: `methods.reduce((resource, method) => assign(resource,
{ [method.name]: (requestParams) => { const request = new
Request(method.descriptor, requestParams); return
this.invokeMiddlewares(resourceName, method.name, request) } }), {})`. -/
def ClientBuilderState.buildResource (b : ClientBuilderState ε σ D P Res GwCfg)
    (resourceName : String) (methods : List (Method D)) :
    String → Option (P → JsM ε σ Res) :=
  methods.foldl
    (fun resource method => assign resource
      (fun k =>
        if k = method.name then
          some (fun requestParams =>
            b.invokeMiddlewares resourceName method.name
              (Request.mk method.descriptor requestParams))
        else none))
    (fun _ => none)

/-- The built client: the `_manifest` property plus one property per resource
name, each holding that resource's generated methods. -/
structure Client (ε σ D P Res GwCfg : Type) where
  _manifest : Manifest ε σ D P Res GwCfg
  resources : String → Option (String → Option (P → JsM ε σ Res))

/-- src lines 29-37: `const client = { _manifest: this.manifest };
this.manifest.eachResource((name, methods) => { client[name] =
this.buildResource(name, methods) }); return client`. -/
def ClientBuilderState.build (b : ClientBuilderState ε σ D P Res GwCfg) :
    Client ε σ D P Res GwCfg where
  _manifest := b.manifest
  resources := b.manifest.resources.foldl
    (fun client entry => assign client
      (fun k => if k = entry.1 then some (b.buildResource entry.1 entry.2) else none))
    (fun _ => none)

/-- Concrete manifest for the build witness: one resource with one method. -/
def witnessManifest : Manifest String Nat Nat Nat Nat Unit where
  resources := [("User", [⟨"byId", 0⟩])]
  createMiddleware := fun _ _ => []
  gatewayConfigs := ()

/-- Concrete builder state for the build witness. -/
def witnessBuilder : ClientBuilderState String Nat Nat Nat Nat Unit where
  manifest := witnessManifest
  GatewayClassFactory := fun _ => fun _ _ => JsM.pure 99

end Mappersmith

namespace Mappersmith

@[simp] theorem JsM.pure_bind (a : α) (f : α → JsM ε σ β) :
    (JsM.pure a).bind f = f a := rfl

@[simp] theorem JsM.bind_pure (x : JsM ε σ α) : x.bind JsM.pure = x := by
  funext s
  unfold JsM.bind JsM.pure
  rcases x s with ⟨r, s₁⟩
  cases r <;> rfl

@[simp] theorem JsM.bind_assoc (x : JsM ε σ α) (f : α → JsM ε σ β) (g : β → JsM ε σ γ) :
    (x.bind f).bind g = x.bind (fun a => (f a).bind g) := by
  funext s
  unfold JsM.bind
  rcases x s with ⟨r, s₁⟩
  cases r <;> rfl

@[simp] theorem JsM.throw_bind (e : ε) (f : α → JsM ε σ β) :
    (JsM.throw e).bind f = JsM.throw e := rfl

/-- The source's request-phase fold, from any accumulator, is the spec's
sequential fold sequenced after that accumulator. -/
theorem foldl_chainRequestPhase (ms : List (MiddlewareInstance ε σ Req Res))
    (acc : JsM ε σ Req) :
    ms.foldl chainRequestPhase acc = acc.bind (fun r => requestPhaseSpec ms r) := by
  induction ms generalizing acc with
  | nil => simp [requestPhaseSpec]
  | cons m ms ih =>
      simp only [List.foldl_cons, ih, chainRequestPhase, requestPhaseSpec,
        JsM.bind_assoc, JsM.bind_pure]

/-- Running the source's response-phase fold over index-logging middleware
appends the indices in reverse declared order before reaching the base
continuation: the left `reduce` makes the last middleware the outermost wrapper. -/
theorem foldl_chainResponsePhase_seqLog (is : List Nat) (base : JsM String (List Nat) Nat) :
    (is.map seqLogMiddleware).foldl chainResponsePhase base
      = fun s => base (s ++ is.reverse) := by
  induction is generalizing base with
  | nil => funext s; simp
  | cons i is ih =>
      simp only [List.map_cons, List.foldl_cons, ih]
      funext s
      simp [chainResponsePhase, seqLogMiddleware, createMiddleware, JsM.bind, logIdx,
        List.reverse_cons, List.append_assoc]

/-- Request hooks that are all the identity leave the request-phase fold at
`Promise.resolve(initialRequest)`. -/
theorem foldl_chainRequestPhase_seqLog (is : List Nat) (r : Nat) :
    (is.map seqLogMiddleware).foldl chainRequestPhase (JsM.pure r) = JsM.pure r := by
  rw [foldl_chainRequestPhase]
  induction is generalizing r with
  | nil => simp [requestPhaseSpec]
  | cons i is ih =>
      simp only [List.map_cons, requestPhaseSpec, seqLogMiddleware, createMiddleware,
        Option.getD_none, JsM.pure_bind]
      exact ih r

theorem chainRequestPhase_noop (acc : JsM ε σ Req) :
    chainRequestPhase acc (noopMiddleware : MiddlewareInstance ε σ Req Res) = acc := by
  simp [chainRequestPhase, noopMiddleware, createMiddleware]

theorem chainResponsePhase_noop (next : JsM ε σ Res) :
    chainResponsePhase next (noopMiddleware : MiddlewareInstance ε σ Req Res) = next := rfl

/-- Middleware instances whose factories define no `response` hook contribute no
wrapping: the response-phase fold returns the base continuation unchanged. -/
theorem foldl_chainResponsePhase_responseNone
    (hooks : List (MiddlewareHooks ε σ Req Res))
    (hnone : ∀ x ∈ hooks, x.response = none) (base : JsM ε σ Res) :
    (hooks.map createMiddleware).foldl chainResponsePhase base = base := by
  induction hooks generalizing base with
  | nil => rfl
  | cons x xs ih =>
      have hx : x.response = none := hnone x (by simp)
      have hstep : chainResponsePhase base (createMiddleware x) = base := by
        simp [chainResponsePhase, createMiddleware, hx]
      simp only [List.map_cons, List.foldl_cons, hstep]
      exact ih (fun y hy => hnone y (by simp [hy])) base

/-- A rejection already present in the accumulator propagates unchanged through
the rest of the request-phase fold: no later request hook runs. -/
theorem foldl_chainRequestPhase_err (ms : List (MiddlewareInstance ε σ Req Res))
    (acc : JsM ε σ Req) (s s₁ : σ) (e : ε) (hacc : acc s = (.err e, s₁)) :
    (ms.foldl chainRequestPhase acc) s = (.err e, s₁) := by
  rw [foldl_chainRequestPhase]
  simp only [JsM.bind, hacc]

/-- C1 (counterexample).  For two middleware whose `response` hooks record their
index before calling `next()`, the recorded log is `[1, 0]`, not `[0, 1]` as the
claim states: declared order is not the execution order of the response phase. -/
theorem response_order_claim_counterexample :
    (invokeMiddlewares ((List.range 2).map seqLogMiddleware) (constGateway 0) 0 []).2 = [1, 0]
      ∧ [1, 0] ≠ [0, 1] := by
  exact ⟨by decide, by decide⟩

/-- C1 (amended).  For every middleware list `m0 … mN-1` whose members all define a
`response` hook recording its index before calling `next()`, invoking the chain
executes the response hooks as an onion in REVERSE declared order — middleware
`N-1`'s hook is the outermost wrapper and runs first, down to middleware 0 and
then the Gateway call — so the recorded log equals `[N-1, …, 1, 0]`. -/
theorem response_hooks_run_in_reverse_declared_order (n : Nat) (res r : Nat) (s : List Nat) :
    invokeMiddlewares ((List.range n).map seqLogMiddleware) (constGateway res) r s
      = (.ok res, s ++ (List.range n).reverse) := by
  unfold invokeMiddlewares
  rw [foldl_chainRequestPhase_seqLog, JsM.pure_bind, foldl_chainResponsePhase_seqLog]
  rfl

/-- C2 (code bug).  The source invokes each `response` hook with the next
continuation as its only argument (`middleware.response(next)`, line 57), so the
`renew` parameter a hook declares is `undefined`: a hook that calls `renew()` —
as the repository's own tests do — rejects the whole call with a TypeError, and
the gateway is never reached. -/
theorem response_hook_receives_no_renew :
    (∀ (next : JsM String Nat Nat) (mw : MiddlewareInstance String Nat Nat Nat),
        chainResponsePhase next mw = mw.response next none)
      ∧ invokeMiddlewares [renewProbeMiddleware] countingGateway 7 0
          = (.err "TypeError: renew is not a function", 0) := by
  exact ⟨fun _ _ => rfl, by decide⟩

/-- C3 (code bug).  `invokeMiddlewares` keeps no execution counter: on the input of
the repository's own test `prevents renew to cause infinite loops` the stack runs
once (`executionCount = 1`), the gateway is never called, and the call rejects
with a TypeError from the undefined `renew` — not with the loop-guard failure
`[Mappersmith] infinite loop detected (middleware stack invoked 3 times)…` that
the test demands. -/
theorem no_loop_guard_in_invokeMiddlewares :
    invokeMiddlewares [loopingMiddleware] loopTestGateway 0 (0, 0)
        = (.err "TypeError: renew is not a function", (1, 0))
      ∧ "TypeError: renew is not a function"
          ≠ "[Mappersmith] infinite loop detected (middleware stack invoked 3 times). Check the use of \"renew\" in one of the middleware." := by
  exact ⟨by decide, by decide⟩

/-- C4.  A middleware instance defining neither a `request` nor a `response` hook
is a complete no-op: inserting it anywhere in the chain leaves the entire invoke
call — request phase, response phase, gateway, result and side effects —
pointwise identical to the chain without it, so the call never fails on its
account. -/
theorem noop_middleware_is_transparent
    (ms1 ms2 : List (MiddlewareInstance ε σ Req Res))
    (gw : Req → JsM ε σ Res) (r0 : Req) :
    invokeMiddlewares (ms1 ++ noopMiddleware :: ms2) gw r0
      = invokeMiddlewares (ms1 ++ ms2) gw r0 := by
  simp [invokeMiddlewares, List.foldl_append, chainRequestPhase_noop, chainResponsePhase_noop]

/-- C5.  The request phase is a strictly sequential left-to-right fold over the
middleware list starting from the initial Request: (1) the source's fold equals
the spec's sequential replace-the-working-Request recursion; (2) appending a
middleware makes its `request` hook receive exactly the Request produced by all
prior hooks; (3) the response phase's base continuation is the gateway applied
to the fold's result (`finalRequest`), and a request-phase rejection reaches the
caller directly. -/
theorem request_phase_is_sequential_fold :
    (∀ (ms : List (MiddlewareInstance ε σ Req Res)) (r0 : Req),
        ms.foldl chainRequestPhase (JsM.pure r0) = requestPhaseSpec ms r0)
      ∧ (∀ (ms : List (MiddlewareInstance ε σ Req Res))
            (m : MiddlewareInstance ε σ Req Res) (r0 : Req),
          (ms ++ [m]).foldl chainRequestPhase (JsM.pure r0)
            = (ms.foldl chainRequestPhase (JsM.pure r0)).bind (fun r => m.request r))
      ∧ (∀ (ms : List (MiddlewareInstance ε σ Req Res))
            (gw : Req → JsM ε σ Res) (r0 : Req) (s : σ),
          invokeMiddlewares ms gw r0 s
            = match ms.foldl chainRequestPhase (JsM.pure r0) s with
              | (.ok rf, s₁) => ms.foldl chainResponsePhase (gw rf) s₁
              | (.err e, s₁) => (.err e, s₁)) := by
  refine ⟨fun ms r0 => ?_, fun ms m r0 => ?_, fun ms gw r0 s => ?_⟩
  · rw [foldl_chainRequestPhase, JsM.pure_bind]
  · simp [List.foldl_append, chainRequestPhase]
  · show ((ms.foldl chainRequestPhase (JsM.pure r0)).bind _) s = _
    unfold JsM.bind
    rcases hfold : ms.foldl chainRequestPhase (JsM.pure r0) s with ⟨r, s₁⟩
    cases r <;> rfl

/-- C6.  (1) When no middleware defines a `response` hook, the whole invoke call
is the request-phase fold followed by exactly one Gateway call on the resulting
`finalRequest`, whose Response is returned unchanged.  (2) A `response` hook
resolving a Response without ever calling `next()` yields a resolved invoke call
in which the Gateway — left arbitrary — is never invoked: the result is the
hook's Response and the state is exactly the post-request-phase state. -/
theorem gateway_called_exactly_once_or_suppressed :
    (∀ (hooks : List (MiddlewareHooks ε σ Req Res)) (gw : Req → JsM ε σ Res) (r0 : Req),
        (∀ x ∈ hooks, x.response = none) →
        invokeMiddlewares (hooks.map createMiddleware) gw r0
          = ((hooks.map createMiddleware).foldl chainRequestPhase (JsM.pure r0)).bind gw)
      ∧ (∀ (ms : List (MiddlewareInstance ε σ Req Res)) (res : Res)
            (gw : Req → JsM ε σ Res) (r0 : Req) (s s₁ : σ) (rf : Req),
          ((ms ++ [constResponseMiddleware res]).foldl chainRequestPhase (JsM.pure r0)) s
              = (.ok rf, s₁) →
          invokeMiddlewares (ms ++ [constResponseMiddleware res]) gw r0 s = (.ok res, s₁)) := by
  constructor
  · intro hooks gw r0 hnone
    unfold invokeMiddlewares
    have hresp : (fun fr => (hooks.map createMiddleware).foldl chainResponsePhase (gw fr)) = gw :=
      funext fun fr => foldl_chainResponsePhase_responseNone hooks hnone (gw fr)
    rw [hresp]
  · intro ms res gw r0 s s₁ rf hfold
    have hresp : ∀ fr : Req,
        ((ms ++ [constResponseMiddleware res]).foldl chainResponsePhase (gw fr))
          = JsM.pure res := by
      intro fr
      rw [List.foldl_append]
      rfl
    simp only [invokeMiddlewares, JsM.bind, hfold, hresp]
    rfl

/-- C7.  Rejections short-circuit and propagate with no implicit recovery:
(1) a `request` hook that throws rejects the whole call with its error, with the
state exactly as left by the preceding hooks — later request hooks (arbitrary
`ms2`), every response hook and the Gateway (arbitrary `gw`) never run;
(2) a throwing `response` hook likewise rejects the call; (3) a Gateway
rejection propagates through a hookless response phase to the caller. -/
theorem hook_errors_propagate_and_short_circuit :
    (∀ (ms1 ms2 : List (MiddlewareInstance ε σ Req Res)) (e : ε)
        (gw : Req → JsM ε σ Res) (r0 : Req) (s s₁ : σ) (rf : Req),
        (ms1.foldl chainRequestPhase (JsM.pure r0)) s = (.ok rf, s₁) →
        invokeMiddlewares (ms1 ++ throwingRequestMiddleware e :: ms2) gw r0 s = (.err e, s₁))
      ∧ (∀ (ms : List (MiddlewareInstance ε σ Req Res)) (e : ε)
            (gw : Req → JsM ε σ Res) (r0 : Req) (s s₁ : σ) (rf : Req),
          ((ms ++ [throwingResponseMiddleware e]).foldl chainRequestPhase (JsM.pure r0)) s
              = (.ok rf, s₁) →
          invokeMiddlewares (ms ++ [throwingResponseMiddleware e]) gw r0 s = (.err e, s₁))
      ∧ (∀ (hooks : List (MiddlewareHooks ε σ Req Res)) (e : ε) (r0 : Req) (s s₁ : σ) (rf : Req),
          (∀ x ∈ hooks, x.response = none) →
          ((hooks.map createMiddleware).foldl chainRequestPhase (JsM.pure r0)) s = (.ok rf, s₁) →
          invokeMiddlewares (hooks.map createMiddleware) (fun _ => JsM.throw e) r0 s
            = (.err e, s₁)) := by
  refine ⟨?_, ?_, ?_⟩
  · intro ms1 ms2 e gw r0 s s₁ rf h
    have hacc : (chainRequestPhase (ms1.foldl chainRequestPhase (JsM.pure r0))
        (throwingRequestMiddleware e : MiddlewareInstance ε σ Req Res)) s = (.err e, s₁) := by
      simp [chainRequestPhase, JsM.bind, throwingRequestMiddleware, JsM.throw, h]
    have hfold : ((ms1 ++ throwingRequestMiddleware e :: ms2).foldl chainRequestPhase
        (JsM.pure r0)) s = (.err e, s₁) := by
      rw [List.foldl_append, List.foldl_cons]
      exact foldl_chainRequestPhase_err ms2 _ s s₁ e hacc
    simp only [invokeMiddlewares, JsM.bind, hfold]
  · intro ms e gw r0 s s₁ rf hfold
    have hresp : ∀ fr : Req,
        ((ms ++ [throwingResponseMiddleware e]).foldl chainResponsePhase (gw fr))
          = JsM.throw e := by
      intro fr
      rw [List.foldl_append]
      rfl
    simp only [invokeMiddlewares, JsM.bind, hfold, hresp, JsM.throw]
  · intro hooks e r0 s s₁ rf hnone hfold
    simp only [invokeMiddlewares, JsM.bind, hfold,
      foldl_chainResponsePhase_responseNone hooks hnone, JsM.throw]

/-- Witness for C6: one request-only middleware makes the call a single counted
gateway call; one next-less `response` hook resolves its own Response with the
gateway counter untouched. -/
theorem gateway_called_exactly_once_or_suppressed_witness :
    invokeMiddlewares
        ([({ request := some (fun r => JsM.pure (r + 1)), response := none } :
            MiddlewareHooks String Nat Nat Nat)].map createMiddleware) countingGateway 5
      = (([({ request := some (fun r => JsM.pure (r + 1)), response := none } :
            MiddlewareHooks String Nat Nat Nat)].map createMiddleware).foldl
            chainRequestPhase (JsM.pure 5)).bind countingGateway
    ∧ invokeMiddlewares [constResponseMiddleware 42] countingGateway 5 0 = (.ok 42, 0) := by
  refine ⟨gateway_called_exactly_once_or_suppressed.1 _ countingGateway 5 ?_,
    gateway_called_exactly_once_or_suppressed.2 [] 42 countingGateway 5 0 0 5 ?_⟩
  · intro x hx
    rw [List.mem_singleton] at hx
    subst hx
    rfl
  · decide

/-- Witness for C7: a throwing request hook, a throwing response hook and a
rejecting gateway each reject the call, with the counted gateway never run. -/
theorem hook_errors_propagate_witness :
    invokeMiddlewares [throwingRequestMiddleware "boom"] countingGateway 3 0 = (.err "boom", 0)
    ∧ invokeMiddlewares [throwingResponseMiddleware "bang"] countingGateway 3 0
        = (.err "bang", 0)
    ∧ invokeMiddlewares ([] : List (MiddlewareInstance String Nat Nat Nat))
        (fun _ => JsM.throw "gateway down") 3 0 = (.err "gateway down", 0) := by
  refine ⟨hook_errors_propagate_and_short_circuit.1 [] [] "boom" countingGateway 3 0 0 3 ?_,
    hook_errors_propagate_and_short_circuit.2.1 [] "bang" countingGateway 3 0 0 3 ?_,
    hook_errors_propagate_and_short_circuit.2.2 [] "gateway down" 3 0 0 3 ?_ ?_⟩
  · decide
  · decide
  · intro x hx
    cases hx
  · decide

/-- C8.  Client construction fails synchronously in exactly two cases: a falsy
manifest argument, with `invalid manifest (<value>)` embedding the offending
value, and a gateway factory that is absent or returns a falsy class, with
`gateway class not configured`; with a truthy manifest and a factory producing a
truthy class, construction succeeds and stores both. -/
theorem clientBuilder_fails_in_exactly_two_cases :
    (∀ (dispM : M → String) (factory : JsArg (Unit → JsArg G)) (manifest : JsArg M),
        manifest.truthy = false →
        ClientBuilder dispM manifest factory
          = .error ("[Mappersmith] invalid manifest (" ++ JsArg.display dispM manifest ++ ")"))
      ∧ (∀ (dispM : M → String) (m : M) (factory : JsArg (Unit → JsArg G)),
          factory.truthy = false →
          ClientBuilder dispM (.value m) factory
            = .error "[Mappersmith] gateway class not configured (configs.gateway)")
      ∧ (∀ (dispM : M → String) (m : M) (factory : Unit → JsArg G),
          (factory ()).truthy = false →
          ClientBuilder dispM (.value m) (.value factory)
            = .error "[Mappersmith] gateway class not configured (configs.gateway)")
      ∧ (∀ (dispM : M → String) (m : M) (factory : Unit → JsArg G) (g : G),
          factory () = .value g →
          ClientBuilder dispM (.value m) (.value factory) = .ok ⟨m, factory⟩) := by
  refine ⟨fun dispM factory manifest h => ?_, fun dispM m factory h => ?_,
    fun dispM m factory h => ?_, fun dispM m factory g h => ?_⟩
  · cases manifest with
    | undefined => rfl
    | null => rfl
    | value a => simp [JsArg.truthy] at h
  · cases factory with
    | undefined => rfl
    | null => rfl
    | value f => simp [JsArg.truthy] at h
  · cases hf : factory () with
    | undefined => simp [ClientBuilder, JsArg.truthy, hf]
    | null => simp [ClientBuilder, JsArg.truthy, hf]
    | value g => rw [hf] at h; simp [JsArg.truthy] at h
  · simp [ClientBuilder, JsArg.truthy, h]

/-- Witness for C8 at concrete inputs: each of the two failure shapes and the
success shape. -/
theorem clientBuilder_construction_witness :
    ClientBuilder (fun n : Nat => toString n) .undefined
        (.value (fun _ => JsArg.value (7 : Nat)))
      = .error "[Mappersmith] invalid manifest (undefined)"
    ∧ ClientBuilder (fun n : Nat => toString n) (.value 5) (JsArg.null : JsArg (Unit → JsArg Nat))
        = .error "[Mappersmith] gateway class not configured (configs.gateway)"
    ∧ ClientBuilder (fun n : Nat => toString n) (.value 5)
        (.value (fun _ => (JsArg.null : JsArg Nat)))
        = .error "[Mappersmith] gateway class not configured (configs.gateway)"
    ∧ ClientBuilder (fun n : Nat => toString n) (.value 5)
        (.value (fun _ => JsArg.value (7 : Nat)))
        = .ok ⟨5, fun _ => JsArg.value 7⟩ := by
  refine ⟨clientBuilder_fails_in_exactly_two_cases.1 _ _ _ rfl,
    clientBuilder_fails_in_exactly_two_cases.2.1 _ 5 _ rfl,
    clientBuilder_fails_in_exactly_two_cases.2.2.1 _ 5 _ rfl,
    clientBuilder_fails_in_exactly_two_cases.2.2.2 _ 5 _ 7 rfl⟩

/-- C9.  `setContext` merges the given object into the existing process-wide
context rather than replacing it: afterwards every key of the argument is
present with the argument's value, and every key the argument does not mention
keeps its previous value. -/
theorem setContext_merges_into_existing_context (configs : ConfigsState α)
    (context : String → Option α) (k : String) :
    (∀ v, context k = some v → (setContext context configs).context k = some v)
      ∧ (context k = none → (setContext context configs).context k = configs.context k) := by
  constructor
  · intro v hv
    simp [setContext, assign, hv]
  · intro hnone
    simp [setContext, assign, hnone]

/-- Witness for C9: the argument's key `a` wins, the untouched key `b` is
preserved. -/
theorem setContext_merges_witness :
    (setContext contextArgument ⟨previousContext⟩).context "a" = some 9
      ∧ (setContext contextArgument ⟨previousContext⟩).context "b" = previousContext "b" := by
  refine ⟨?_, ?_⟩
  · have h := (setContext_merges_into_existing_context ⟨previousContext⟩ contextArgument "a").1
      9 (by decide)
    exact h
  · exact (setContext_merges_into_existing_context ⟨previousContext⟩ contextArgument "b").2
      (by decide)

/-- A successful lookup after folding single-key `assign`s comes from some list
element bearing that key, or fell through to the base object. -/
theorem foldl_assign_lookup_mem {β γ : Type} (l : List β) (key : β → String) (val : β → γ)
    (base : String → Option γ) (k : String) (v : γ)
    (h : (l.foldl (fun acc x => assign acc
        (fun q => if q = key x then some (val x) else none)) base) k = some v) :
    (∃ x ∈ l, k = key x ∧ v = val x) ∨ base k = some v := by
  induction l generalizing base with
  | nil => exact Or.inr h
  | cons x xs ih =>
      rcases ih _ h with hxs | hbase
      · rcases hxs with ⟨y, hy, hk, hv⟩
        exact Or.inl ⟨y, by simp [hy], hk, hv⟩
      · by_cases hkx : k = key x
        · refine Or.inl ⟨x, by simp, hkx, ?_⟩
          simp [assign, hkx] at hbase
          exact hbase.symm
        · right
          simpa [assign, hkx] using hbase

/-- Folding single-key `assign`s never erases a key the base object already has. -/
theorem foldl_assign_lookup_isSome {β γ : Type} (l : List β) (key : β → String) (val : β → γ)
    (base : String → Option γ) (k : String) (h : (base k).isSome) :
    ((l.foldl (fun acc x => assign acc
        (fun q => if q = key x then some (val x) else none)) base) k).isSome := by
  induction l generalizing base with
  | nil => exact h
  | cons x xs ih =>
      apply ih
      by_cases hkx : k = key x
      · simp [assign, hkx]
      · simpa [assign, hkx] using h

/-- A key written by some list element is present after folding single-key
`assign`s. -/
theorem foldl_assign_lookup_of_mem {β γ : Type} (l : List β) (key : β → String) (val : β → γ)
    (base : String → Option γ) (k : String) (h : ∃ x ∈ l, k = key x) :
    ((l.foldl (fun acc x => assign acc
        (fun q => if q = key x then some (val x) else none)) base) k).isSome := by
  induction l generalizing base with
  | nil =>
      rcases h with ⟨x, hx, _⟩
      cases hx
  | cons x xs ih =>
      rcases h with ⟨y, hy, hk⟩
      rcases List.mem_cons.mp hy with hyx | hyxs
      · subst hyx
        refine foldl_assign_lookup_isSome xs key val
          (assign base (fun q => if q = key y then some (val y) else none)) k ?_
        simp [assign, hk]
      · exact ih _ ⟨y, hyxs, hk⟩

/-- C10.  `build()` returns a client holding (1) the internal Manifest instance as
`_manifest`; (2) a property for exactly the resource names of the manifest —
every manifest resource is present, and (3) every present property is the
`buildResource` result of a manifest entry of that name; and (4) every generated
method found in a resource map is, for some method entry of that resource, the
function constructing a fresh Request from the method descriptor and the
call-time params and passing it to `invokeMiddlewares`. -/
theorem build_client_shape (b : ClientBuilderState ε σ D P Res GwCfg) :
    b.build._manifest = b.manifest
      ∧ (∀ (name : String) (methods : List (Method D)),
          (name, methods) ∈ b.manifest.resources →
          ∃ r, b.build.resources name = some r)
      ∧ (∀ (name : String) (r : String → Option (P → JsM ε σ Res)),
          b.build.resources name = some r →
          ∃ methods, (name, methods) ∈ b.manifest.resources
            ∧ r = b.buildResource name methods)
      ∧ (∀ (resourceName mname : String) (methods : List (Method D))
            (f : P → JsM ε σ Res),
          b.buildResource resourceName methods mname = some f →
          ∃ m ∈ methods, m.name = mname
            ∧ f = fun requestParams =>
                b.invokeMiddlewares resourceName m.name
                  (Request.mk m.descriptor requestParams)) := by
  refine ⟨rfl, fun name methods hmem => ?_, fun name r h => ?_,
    fun resourceName mname methods f h => ?_⟩
  · have := foldl_assign_lookup_of_mem b.manifest.resources (fun e => e.1)
      (fun e => b.buildResource e.1 e.2) (fun _ => none) name
      ⟨(name, methods), hmem, rfl⟩
    exact Option.isSome_iff_exists.mp this
  · rcases foldl_assign_lookup_mem b.manifest.resources (fun e => e.1)
      (fun e => b.buildResource e.1 e.2) (fun _ => none) name r h with hfound | hbase
    · rcases hfound with ⟨entry, hentry, hk, hv⟩
      refine ⟨entry.2, ?_, ?_⟩
      · have : (name, entry.2) = entry := by
          rw [hk]
        rw [this]
        exact hentry
      · rw [hv, hk]
    · cases hbase
  · rcases foldl_assign_lookup_mem methods (fun m => m.name)
      (fun m => fun requestParams =>
        b.invokeMiddlewares resourceName m.name (Request.mk m.descriptor requestParams))
      (fun _ => none) mname f h with hfound | hbase
    · rcases hfound with ⟨m, hm, hk, hv⟩
      exact ⟨m, hm, hk.symm, hv⟩
    · cases hbase

/-- Witness for C10 on a one-resource, one-method manifest. -/
theorem build_client_shape_witness :
    witnessBuilder.build._manifest = witnessBuilder.manifest
      ∧ (∃ r, witnessBuilder.build.resources "User" = some r)
      ∧ (∃ methods, ("User", methods) ∈ witnessBuilder.manifest.resources
          ∧ witnessBuilder.buildResource "User" [⟨"byId", 0⟩]
              = witnessBuilder.buildResource "User" methods)
      ∧ (∃ m ∈ [(⟨"byId", 0⟩ : Method Nat)], m.name = "byId"
          ∧ (fun requestParams =>
                witnessBuilder.invokeMiddlewares "User" "byId"
                  (Request.mk 0 requestParams))
              = fun requestParams =>
                  witnessBuilder.invokeMiddlewares "User" m.name
                    (Request.mk m.descriptor requestParams)) := by
  refine ⟨(build_client_shape witnessBuilder).1,
    (build_client_shape witnessBuilder).2.1 "User" [⟨"byId", 0⟩]
      (by simp [witnessBuilder, witnessManifest]),
    (build_client_shape witnessBuilder).2.2.1 "User"
      (witnessBuilder.buildResource "User" [⟨"byId", 0⟩]) ?_,
    (build_client_shape witnessBuilder).2.2.2 "User" "byId" [⟨"byId", 0⟩]
      (fun requestParams =>
        witnessBuilder.invokeMiddlewares "User" "byId" (Request.mk 0 requestParams)) ?_⟩
  · rfl
  · rfl

end Mappersmith
